import Mathlib

/-!
# Verification of the bassh worker access-control core

Shallow embedding of the bassh Cloudflare worker (`bassh-worker`) key-value
state and its route handlers, with proofs about the claims of the
specification.  The worker's single KV namespace (`env.USERS`) is modelled as
an association list of entries with an optional expiry time; every store
operation of the source (`get`, `put` with optional `expirationTtl`,
`delete`) is embedded explicitly.  Randomness (generated API keys, OTP codes,
encryption keys, salts, IVs) is lifted to explicit parameters, and the
wall-clock is an explicit `now : Nat` argument measured in seconds.
-/

namespace Bassh

/-- The heterogeneous values stored in the worker's single KV namespace.
Each constructor corresponds to one of the JSON shapes the source writes:
`user:<name>` records, `key:<apiKey>` / `machine:<id>` reverse mappings,
`otp-key:<project>` protection-key records, `otp:<project>:<code>`
challenges and `otp-rate:...` / `ratelimit:...` counters (the source stores
counters as stringified integers; we keep them as `Nat`). -/
inductive Val where
  | user (key created machineId : String)
  | uname (username : String)
  | otpKeyRec (key : String) (emails : List String)
  | challenge (email : String) (created : Nat)
  | counter (n : Nat)
  deriving DecidableEq, Repr

/-- One stored KV entry: key, value and optional absolute expiry time
(an entry written with `expirationTtl: d` at time `t` expires at `t + d`). -/
structure Entry where
  key : String
  val : Val
  expiresAt : Option Nat
  deriving DecidableEq, Repr

/-- The whole KV namespace, as an association list (first match wins; the
`put` operation removes any previous entry for the key, as Workers KV
replaces values). -/
def Store := List Entry

instance : DecidableEq Store := inferInstanceAs (DecidableEq (List Entry))

/-- Is an entry still live at time `now`? (Entries without TTL never expire;
an entry expires exactly when its TTL has elapsed.) -/
def liveAt (now : Nat) (e : Entry) : Bool :=
  match e.expiresAt with
  | none => true
  | some t => now < t

/-- `env.USERS.get(k)` at time `now`: an expired entry reads as absent. -/
def kvGet : Store → String → Nat → Option Val
  | [], _, _ => none
  | e :: rest, k, now =>
    if e.key = k then (if liveAt now e then some e.val else none)
    else kvGet rest k now

/-- `env.USERS.delete(k)`: removes the entry for `k`. -/
def kvDelete : Store → String → Store
  | [], _ => []
  | e :: rest, k => if e.key = k then kvDelete rest k else e :: kvDelete rest k

/-- `env.USERS.put(k, v, { expirationTtl })`: replaces the entry for `k`. -/
def kvPut (s : Store) (k : String) (v : Val) (exp : Option Nat) : Store :=
  ⟨k, v, exp⟩ :: kvDelete s k

@[simp] theorem kvGet_nil (k : String) (now : Nat) : kvGet [] k now = none := rfl

theorem kvGet_delete_same (s : Store) (k : String) (now : Nat) :
    kvGet (kvDelete s k) k now = none := by
  induction s with
  | nil => rfl
  | cons e rest ih =>
    by_cases h : e.key = k <;> simp [kvDelete, kvGet, h, ih]

theorem kvGet_delete_other (s : Store) (k k' : String) (now : Nat) (h : k' ≠ k) :
    kvGet (kvDelete s k) k' now = kvGet s k' now := by
  induction s with
  | nil => rfl
  | cons e rest ih =>
    by_cases he : e.key = k
    · simp [kvDelete, kvGet, he, Ne.symm h, ih]
    · by_cases he' : e.key = k' <;> simp [kvDelete, kvGet, he, he', h, ih]

theorem kvGet_put_same (s : Store) (k : String) (v : Val) (exp : Option Nat) (now : Nat) :
    kvGet (kvPut s k v exp) k now =
      if liveAt now ⟨k, v, exp⟩ then some v else none := by
  simp [kvPut, kvGet]

theorem kvGet_put_same_noexp (s : Store) (k : String) (v : Val) (now : Nat) :
    kvGet (kvPut s k v none) k now = some v := by
  simp [kvPut, kvGet, liveAt]

theorem kvGet_put_other (s : Store) (k k' : String) (v : Val) (exp : Option Nat)
    (now : Nat) (h : k' ≠ k) :
    kvGet (kvPut s k v exp) k' now = kvGet s k' now := by
  have : k ≠ k' := fun hh => h hh.symm
  simp [kvPut, kvGet, this, kvGet_delete_other s k k' now h]

/-! ## Key-string disjointness

The worker builds its KV keys by concatenating fixed literal prefixes with
request data (`user:`, `key:`, `machine:`, `otp-key:`, `otp:…:…`,
`otp-rate:…:…`).  Keys with different literal prefixes can never collide. -/

theorem string_append_data (a b : String) : (a ++ b).data = a.data ++ b.data := rfl

theorem string_eq_of_data_eq {a b : String} (h : a.data = b.data) : a = b := by
  cases a; cases b; exact congrArg String.mk h

theorem append_left_cancel' {pre a b : String} (h : pre ++ a = pre ++ b) : a = b := by
  have hd : pre.data ++ a.data = pre.data ++ b.data := by
    rw [← string_append_data, ← string_append_data, h]
  exact string_eq_of_data_eq (List.append_cancel_left hd)

theorem userKey_ne_keyKey (u k : String) : "user:" ++ u ≠ "key:" ++ k := by
  intro h
  have hd : ("user:" ++ u).data = ("key:" ++ k).data := by rw [h]
  rw [string_append_data, string_append_data] at hd
  have h1 : "user:".data = ['u', 's', 'e', 'r', ':'] := rfl
  have h2 : "key:".data = ['k', 'e', 'y', ':'] := rfl
  rw [h1, h2] at hd
  simp at hd

theorem machineKey_ne_userKey (m u : String) : "machine:" ++ m ≠ "user:" ++ u := by
  intro h
  have hd : ("machine:" ++ m).data = ("user:" ++ u).data := by rw [h]
  rw [string_append_data, string_append_data] at hd
  have h1 : "machine:".data = ['m', 'a', 'c', 'h', 'i', 'n', 'e', ':'] := rfl
  have h2 : "user:".data = ['u', 's', 'e', 'r', ':'] := rfl
  rw [h1, h2] at hd
  simp at hd

theorem machineKey_ne_keyKey (m k : String) : "machine:" ++ m ≠ "key:" ++ k := by
  intro h
  have hd : ("machine:" ++ m).data = ("key:" ++ k).data := by rw [h]
  rw [string_append_data, string_append_data] at hd
  have h1 : "machine:".data = ['m', 'a', 'c', 'h', 'i', 'n', 'e', ':'] := rfl
  have h2 : "key:".data = ['k', 'e', 'y', ':'] := rfl
  rw [h1, h2] at hd
  simp at hd

theorem keyKey_inj {a b : String} (h : "key:" ++ a = "key:" ++ b) : a = b :=
  append_left_cancel' h

/-! ## String primitives

Executable models of the JavaScript string operations the worker uses
(`startsWith`, `endsWith`, `toLowerCase` on the ASCII range, `trim`,
`split(',')`), defined over the character list so they evaluate. -/

/-- `s.startsWith(p)` -/
def strStartsWith (s p : String) : Bool := p.data.isPrefixOf s.data

/-- `s.endsWith(p)` -/
def strEndsWith (s p : String) : Bool := p.data.isSuffixOf s.data

/-- `toLowerCase` on one ASCII character. -/
def lowerChar (c : Char) : Char :=
  if 'A' ≤ c ∧ c ≤ 'Z' then Char.ofNat (c.toNat + 32) else c

/-- `s.toLowerCase()` (ASCII model of the JavaScript case fold). -/
def asciiLower (s : String) : String := String.mk (s.data.map lowerChar)

/-- ASCII whitespace, for `trim`. -/
def isWs (c : Char) : Bool := c = ' ' || c = '\t' || c = '\n' || c = '\r'

/-- `s.trim()` -/
def trimStr (s : String) : String :=
  String.mk (((s.data.dropWhile isWs).reverse.dropWhile isWs).reverse)

/-- `s.split(',')` on the character list. -/
def splitCommaAux : List Char → List Char → List (List Char)
  | [], acc => [acc.reverse]
  | c :: rest, acc =>
    if c = ',' then acc.reverse :: splitCommaAux rest []
    else splitCommaAux rest (c :: acc)

def splitComma (s : String) : List String :=
  (splitCommaAux s.data []).map String.mk

/-! ## Authentication and user management

Embeds `isValidUsername`, `getUserByKey`, `getUserByMachineId`,
`getUserByUsername` and `authenticateRequest` from the worker source. -/

/-- `isValidUsername`: the regex `^[a-z0-9][a-z0-9_-]{2,19}$`. -/
def isUsernameHeadChar (c : Char) : Bool :=
  ('a' ≤ c && c ≤ 'z') || ('0' ≤ c && c ≤ '9')

def isUsernameTailChar (c : Char) : Bool :=
  isUsernameHeadChar c || c = '_' || c = '-'

def isValidUsername (s : String) : Bool :=
  match s.data with
  | [] => false
  | c :: rest =>
    isUsernameHeadChar c && decide (2 ≤ rest.length) && decide (rest.length ≤ 19)
      && rest.all isUsernameTailChar

/-- `getUserByKey`: `null` unless the key has the `sk_` prefix and is present
in the `key:` index; returns the mapped username. -/
def getUserByKey (s : Store) (now : Nat) (apiKey : String) : Option String :=
  if apiKey = "" || !strStartsWith apiKey "sk_" then none
  else
    match kvGet s ("key:" ++ apiKey) now with
    | some (.uname u) => some u
    | _ => none

/-- `getUserByMachineId`: `null` for an absent/empty machine id, else the
`machine:` index lookup. -/
def getUserByMachineId (s : Store) (now : Nat) (machineId : String) : Option String :=
  if machineId = "" then none
  else
    match kvGet s ("machine:" ++ machineId) now with
    | some (.uname u) => some u
    | _ => none

/-- `getUserByUsername`: the `user:` record, if any. -/
def getUserByUsername (s : Store) (now : Nat) (username : String) : Option Val :=
  kvGet s ("user:" ++ username) now

/-- `authenticateRequest`: machine id first (header `X-Machine-ID`), then API
key (header `X-API-Key`); `none` models the 401 outcome.  The header
arguments are `Option String` (`none` = header absent). -/
def authenticateRequest (s : Store) (now : Nat)
    (machineId apiKey : Option String) : Option String :=
  match machineId.bind (getUserByMachineId s now) with
  | some u => some u
  | none => apiKey.bind (getUserByKey s now)

/-! ## API key rotation (`handleKey`, POST branch)

The source (lines 214–228) performs, in order:
1. `put user:<name>` with the new key (other fields spread/preserved),
2. `delete key:<oldKey>` (when the old key is truthy),
3. `put key:<newKey> ↦ {username}`.

`rotateTrace` returns the three successive stores so intermediate states can
be inspected; the generated key is an explicit parameter. -/
def rotateTrace (s : Store) (now : Nat) (username newKey : String) :
    Option (Store × Store × Store) :=
  match getUserByUsername s now username with
  | some (.user oldKey created machineId) =>
    let s1 := kvPut s ("user:" ++ username) (.user newKey created machineId) none
    let s2 := if oldKey ≠ "" then kvDelete s1 ("key:" ++ oldKey) else s1
    let s3 := kvPut s2 ("key:" ++ newKey) (.uname username) none
    some (s1, s2, s3)
  | _ => none

/-- Number of live `ApiKeyIndex` entries (`key:` entries) mapping to the
given username. -/
def liveKeyCount (s : Store) (now : Nat) (username : String) : Nat :=
  (s.filter (fun e =>
    strStartsWith e.key "key:" && liveAt now e && e.val == .uname username)).length

/-! ## Registration (`handleRegister`)

The source (lines 67–141) validates the registration code, username,
machine binding and username uniqueness, then performs up to three
sequential `put`s (User, ApiKeyIndex, MachineIndex) with no retry and no
rollback.  Store writes are asynchronous calls that can fail; the flags
`ok1 ok2 ok3` inject the outcome of each `put` in order.  A failed (rejected)
`put` throws, reaching the surrounding `catch`, which returns the generic
400 "Invalid request body" response — modelled as `storeError` — while the
writes already performed stay visible. -/
inductive RegResult where
  | invalidCode
  | invalidUsername
  | machineTaken (owner : String)
  | usernameTaken
  | storeError
  | success (key : String)
  deriving DecidableEq, Repr

def handleRegister (s : Store) (now : Nat) (regCodeCfg : Option String)
    (username regCode machineId newKey created : String)
    (ok1 ok2 ok3 : Bool) : RegResult × Store :=
  let uname := trimStr (asciiLower username)
  if (match regCodeCfg with | some c => regCode != c | none => false) then
    (.invalidCode, s)
  else if !isValidUsername uname then
    (.invalidUsername, s)
  else
    match getUserByMachineId s now machineId with
    | some owner => (.machineTaken owner, s)
    | none =>
      match getUserByUsername s now uname with
      | some _ => (.usernameTaken, s)
      | none =>
        if !ok1 then (.storeError, s)
        else
          let s1 := kvPut s ("user:" ++ uname) (.user newKey created machineId) none
          if !ok2 then (.storeError, s1)
          else
            let s2 := kvPut s1 ("key:" ++ newKey) (.uname uname) none
            if machineId ≠ "" then
              if !ok3 then (.storeError, s2)
              else (.success newKey, kvPut s2 ("machine:" ++ machineId) (.uname uname) none)
            else (.success newKey, s2)

/-! ## OTP access control -/

/-- KV key of the `ProtectionKeyRecord` of a project: `otp-key:<project>`. -/
def recKey (project : String) : String := "otp-key:" ++ project

/-- KV key of an `OtpChallenge`: `otp:<project>:<code>`. -/
def chalKey (project otp : String) : String := "otp:" ++ project ++ ":" ++ otp

/-- KV key of the OTP-request rate counter: `otp-rate:<project>:<email>`. -/
def rateKey (project emailLower : String) : String :=
  "otp-rate:" ++ project ++ ":" ++ emailLower

/-- Server-side allowlist matching from `handleOTPRequest` (lines 817–827):
case-fold the email, then scan the patterns; an `@`-prefixed pattern matches
by (case-insensitive) suffix, any other pattern by (case-insensitive)
equality.  (`String.toLower` models JavaScript `toLowerCase` on the ASCII
range.) -/
def emailAllowed (email : String) (patterns : List String) : Bool :=
  let emailLower := asciiLower email
  patterns.foldl
    (fun allowed pattern =>
      if strStartsWith pattern "@" then
        if strEndsWith emailLower (asciiLower pattern) then true else allowed
      else
        if emailLower = asciiLower pattern then true else allowed)
    false

/-- The `emails` field the source reads from a `ProtectionKeyRecord`
(`keyData.emails || []`). -/
def emailsOf : Val → List String
  | .otpKeyRec _ es => es
  | _ => []

inductive OtpReqResult where
  | missingFields
  | invalidProject
  | emailNotAuthorized
  | rateLimited
  | emailNotConfigured
  | emailFailed
  | success (otp : String)
  deriving DecidableEq, Repr

/-- `handleOTPRequest` (lines 796–905).  The generated code is the explicit
parameter `otp`; `emailConfigured` models the presence of the `env.EMAIL`
binding and `emailSendOk` the outcome of `env.EMAIL.send` (a dispatch
failure is reported after the challenge and the rate counter were already
written). -/
def handleOTPRequest (s : Store) (now : Nat) (email project pageUrl otp : String)
    (emailConfigured emailSendOk : Bool) : OtpReqResult × Store :=
  if email = "" || project = "" || pageUrl = "" then (.missingFields, s)
  else
    match kvGet s (recKey project) now with
    | none => (.invalidProject, s)
    | some keyData =>
      let emailLower := asciiLower email
      if !emailAllowed email (emailsOf keyData) then (.emailNotAuthorized, s)
      else
        let rateCount :=
          match kvGet s (rateKey project emailLower) now with
          | some (.counter n) => n
          | _ => 0
        if 3 ≤ rateCount then (.rateLimited, s)
        else
          let s1 := kvPut s (rateKey project emailLower)
            (.counter (rateCount + 1)) (some (now + 900))
          let s2 := kvPut s1 (chalKey project otp)
            (.challenge emailLower now) (some (now + 300))
          if !emailConfigured then (.emailNotConfigured, s2)
          else if !emailSendOk then (.emailFailed, s2)
          else (.success otp, s2)

inductive VerifyResult where
  | missingFields
  | invalidOrExpired
  | keyNotFound
  | success (key : String)
  deriving DecidableEq, Repr

/-- `handleOTPVerify` (lines 908–956): look up the challenge (absent ⇒
"Invalid or expired link", state unchanged); delete it (one-time use);
then fetch the project's `ProtectionKeyRecord` ("Key not found" when the
record is absent or has no key — the challenge stays deleted). -/
def handleOTPVerify (s : Store) (now : Nat) (project otp : String) :
    VerifyResult × Store :=
  if otp = "" || project = "" then (.missingFields, s)
  else
    match kvGet s (chalKey project otp) now with
    | none => (.invalidOrExpired, s)
    | some _ =>
      let s1 := kvDelete s (chalKey project otp)
      match kvGet s1 (recKey project) now with
      | some (.otpKeyRec k _) =>
        if k = "" then (.keyNotFound, s1) else (.success k, s1)
      | _ => (.keyNotFound, s1)

/-! ## Deploy: `ProtectionKeyRecord` maintenance (lines 1139–1146)

On an OTP-protected deploy the worker reads `otp-key:<fullProjectName>`,
keeps the existing symmetric key (generating a fresh one only when the
record is absent), replaces the `emails` list with the newly supplied one,
and writes the record back (no TTL). -/

/-- `otpEmails.split(',').map(e => e.trim()).filter(e => e)` -/
def parseOtpEmails (s : String) : List String :=
  ((splitComma s).map trimStr).filter (· ≠ "")

def deployOtpStep (s : Store) (now : Nat) (fullProjectName freshKey otpEmails : String) :
    Store :=
  let existingKey :=
    match kvGet s (recKey fullProjectName) now with
    | some (.otpKeyRec k _) => k
    | some _ => ""
    | none => freshKey
  kvPut s (recKey fullProjectName)
    (.otpKeyRec existingKey (parseOtpEmails otpEmails)) none

/-! ## Error mapping of the route handlers' `catch` blocks

`JsError` models a thrown JavaScript `Error` (message and stack trace);
each `…Catch` function is the body built by the corresponding handler's
`catch` block in the source.  Not every route handler has one: `handleMe`
(lines 144–178) and `handleKey` (lines 181–244) contain no `try/catch`, and
the worker's top-level `fetch` dispatcher does not wrap handler calls, so a
raw exception thrown inside those two handlers escapes uncaught. -/
structure JsError where
  message : String
  stack : String
  deriving DecidableEq, Repr

/-- The fields of the handlers' catch-produced JSON bodies that carry
error detail. -/
structure ErrorBody where
  error : String
  message : Option String
  stack : Option String
  deriving DecidableEq, Repr

def handleRegisterCatch (_e : JsError) : ErrorBody :=
  ⟨"Invalid request body", none, none⟩

def handleOTPRequestCatch (e : JsError) : ErrorBody :=
  ⟨"Internal error", some e.message, none⟩

def handleOTPVerifyCatch (e : JsError) : ErrorBody :=
  ⟨"Internal error", some e.message, none⟩

def handleDeployCatch (e : JsError) : ErrorBody :=
  ⟨"Internal error", some e.message, some e.stack⟩

def handleListCatch (e : JsError) : ErrorBody :=
  ⟨"Internal error", some e.message, none⟩

def handleUninstallCatch (e : JsError) : ErrorBody :=
  ⟨"Internal error during uninstall", some e.message, none⟩

def handleFormSubmitCatch (e : JsError) : ErrorBody :=
  ⟨"Failed to process form submission", some e.message, none⟩

def handleFormsListCatch (e : JsError) : ErrorBody :=
  ⟨"Failed to list forms", some e.message, none⟩

def handleFormsDeleteCatch (e : JsError) : ErrorBody :=
  ⟨"Failed to delete forms", some e.message, none⟩

def handleDeleteCatch (e : JsError) : ErrorBody :=
  ⟨"Internal error", some e.message, none⟩

/-- The route handlers of the worker's `fetch` dispatcher (lines 977–1056). -/
inductive Route where
  | registerRoute | meRoute | keyRoute | otpRequestRoute | otpVerifyRoute
  | deployRoute | listRoute | uninstallRoute | formSubmitRoute
  | formsListRoute | formsDeleteRoute | deleteRoute
  deriving DecidableEq, Repr

/-- The catch mapping of each route handler: `some f` when the handler wraps
its body in `try/catch` with `f` the error body its `catch` builds, and
`none` when the handler has no `try/catch` at all — the case of `handleMe`
(lines 144–178) and `handleKey` (lines 181–244), from which a raw exception
escapes uncaught. -/
def handlerCatch : Route → Option (JsError → ErrorBody)
  | .registerRoute => some handleRegisterCatch
  | .meRoute => none
  | .keyRoute => none
  | .otpRequestRoute => some handleOTPRequestCatch
  | .otpVerifyRoute => some handleOTPVerifyCatch
  | .deployRoute => some handleDeployCatch
  | .listRoute => some handleListCatch
  | .uninstallRoute => some handleUninstallCatch
  | .formSubmitRoute => some handleFormSubmitCatch
  | .formsListRoute => some handleFormsListCatch
  | .formsDeleteRoute => some handleFormsDeleteCatch
  | .deleteRoute => some handleDeleteCatch

/-! ## Content protection: `encryptHTML` and the decryption shell

Bytes are `Nat`s below 256.  `btoa`/`atob` are the platform base64
encoder/decoder, modelled faithfully on byte lists.  The WebCrypto
primitives (`PBKDF2` key derivation and `AES-256-GCM`) are external platform
collaborators; they are modelled as an ideal authenticated cipher: the
derived key is the pair (password bytes, salt) — both sides of the source
use the same KDF parameters (100000 iterations, SHA-256) — and an ideal
AEAD ciphertext authenticates the (key, iv) pair, so decryption succeeds
exactly when key and iv match and otherwise fails (the GCM tag check).
The byte packaging of the source — `salt ‖ iv ‖ ciphertext`, base64, and
the `slice(0,32)/slice(32,48)/slice(48)` split in the embedded shell — is
embedded exactly. -/

/-- The base64 alphabet. -/
def b64Chars : List Char :=
  "ABCDEFGHIJKLMNOPQRSTUVWXYZabcdefghijklmnopqrstuvwxyz0123456789+/".data

def sixToChar (n : Nat) : Char := b64Chars.getD n 'A'

def charToSix (c : Char) : Option Nat := b64Chars.findIdx? (· = c)

/-- Base64-encode a byte list (the chunked `String.fromCharCode`/`btoa`
loop of the source, lines 288–294). -/
def encB64 : List Nat → List Char
  | [] => []
  | [a] => [sixToChar (a / 4), sixToChar (a % 4 * 16), '=', '=']
  | [a, b] => [sixToChar (a / 4), sixToChar (a % 4 * 16 + b / 16),
               sixToChar (b % 16 * 4), '=']
  | a :: b :: c :: rest =>
    sixToChar (a / 4) :: sixToChar (a % 4 * 16 + b / 16) ::
    sixToChar (b % 16 * 4 + c / 64) :: sixToChar (c % 64) :: encB64 rest

/-- Base64-decode (platform `atob`); `none` models the `InvalidCharacterError`
throw on malformed input. -/
def decB64 : List Char → Option (List Nat)
  | [] => some []
  | c1 :: c2 :: c3 :: c4 :: rest =>
    if c3 = '=' && c4 = '=' && rest.isEmpty then
      match charToSix c1, charToSix c2 with
      | some s1, some s2 => some [s1 * 4 + s2 / 16]
      | _, _ => none
    else if c4 = '=' && rest.isEmpty then
      match charToSix c1, charToSix c2, charToSix c3 with
      | some s1, some s2, some s3 =>
        some [s1 * 4 + s2 / 16, s2 % 16 * 16 + s3 / 4]
      | _, _, _ => none
    else
      match charToSix c1, charToSix c2, charToSix c3, charToSix c4, decB64 rest with
      | some s1, some s2, some s3, some s4, some bs =>
        some ((s1 * 4 + s2 / 16) :: (s2 % 16 * 16 + s3 / 4) :: (s3 % 4 * 64 + s4) :: bs)
      | _, _, _, _, _ => none
  | _ => none

def btoa (l : List Nat) : String := String.mk (encB64 l)

def atob (s : String) : Option (List Nat) := decB64 s.data

/-- Ideal model of the key produced by
`deriveKey(PBKDF2(password, salt, 100000, SHA-256), AES-GCM-256)`: the
derivation is deterministic in (password bytes, salt) and ideally
collision-free. -/
structure CryptoKey where
  material : List Nat
  salt : List Nat
  deriving DecidableEq, Repr

def deriveKey (passwordBytes salt : List Nat) : CryptoKey := ⟨passwordBytes, salt⟩

/-- Prefix-free framing used by the ideal cipher's authentication tag. -/
def frame (l : List Nat) : List Nat := (l.flatMap fun b => [1, b]) ++ [0]

/-- The ideal AEAD authentication data for (key, iv). -/
def gcmTag (k : CryptoKey) (iv : List Nat) : List Nat :=
  frame k.material ++ frame k.salt ++ frame iv

/-- Ideal `crypto.subtle.encrypt({name:'AES-GCM', iv}, key, pt)`. -/
def aesGcmEncrypt (k : CryptoKey) (iv pt : List Nat) : List Nat :=
  gcmTag k iv ++ pt

/-- Ideal `crypto.subtle.decrypt`: succeeds exactly when the tag
authenticates under the same (key, iv); otherwise throws (`none`). -/
def aesGcmDecrypt (k : CryptoKey) (iv ct : List Nat) : Option (List Nat) :=
  if (gcmTag k iv).isPrefixOf ct then some (ct.drop (gcmTag k iv).length)
  else none

/-- `encryptHTML` (lines 250–295): random 32-byte salt and 16-byte iv
(lifted to parameters), PBKDF2-derived key, AES-GCM encryption, then
base64 of `salt ‖ iv ‖ ciphertext`.  Plaintext and password are the byte
lists produced by `TextEncoder` (UTF-8). -/
def encryptHTML (salt iv plainBytes passwordBytes : List Nat) : String :=
  btoa (salt ++ iv ++ aesGcmEncrypt (deriveKey passwordBytes salt) iv plainBytes)

/-- The `decrypt` function embedded in the password shell
(`getDecryptTemplate`, lines 402–435): `atob`, split into
`salt = data.slice(0,32)`, `iv = data.slice(32,48)`,
`ciphertext = data.slice(48)`, re-derive the key with the same KDF
parameters, AES-GCM decrypt; any failure is caught and surfaced as `null`. -/
def shellDecrypt (artifact : String) (passwordBytes : List Nat) : Option (List Nat) :=
  match atob artifact with
  | none => none
  | some data =>
    let salt := data.take 32
    let iv := (data.drop 32).take 16
    let ciphertext := data.drop 48
    aesGcmDecrypt (deriveKey passwordBytes salt) iv ciphertext

/-! ## Base64 and ideal-cipher lemmas -/

theorem charToSix_sixToChar : ∀ n < 64, charToSix (sixToChar n) = some n := by decide

theorem sixToChar_ne_pad : ∀ n < 64, sixToChar n ≠ '=' := by decide

theorem decB64_encB64 : ∀ (l : List Nat), (∀ b ∈ l, b < 256) →
    decB64 (encB64 l) = some l
  | [], _ => rfl
  | [a], h => by
    have ha : a < 256 := h a (by simp)
    simp [encB64, decB64, charToSix_sixToChar (a / 4) (by omega),
      charToSix_sixToChar (a % 4 * 16) (by omega)]
    omega
  | [a, b], h => by
    have ha : a < 256 := h a (by simp)
    have hb : b < 256 := h b (by simp)
    have h3 : sixToChar (b % 16 * 4) ≠ '=' := sixToChar_ne_pad _ (by omega)
    simp [encB64, decB64, h3, charToSix_sixToChar (a / 4) (by omega),
      charToSix_sixToChar (a % 4 * 16 + b / 16) (by omega),
      charToSix_sixToChar (b % 16 * 4) (by omega)]
    omega
  | a :: b :: c :: rest, h => by
    have ha : a < 256 := h a (by simp)
    have hb : b < 256 := h b (by simp)
    have hc : c < 256 := h c (by simp)
    have ih : decB64 (encB64 rest) = some rest :=
      decB64_encB64 rest (fun x hx => h x (by simp [hx]))
    have h3 : sixToChar (b % 16 * 4 + c / 64) ≠ '=' := sixToChar_ne_pad _ (by omega)
    have h4 : sixToChar (c % 64) ≠ '=' := sixToChar_ne_pad _ (by omega)
    simp [encB64, decB64, h3, h4, ih, charToSix_sixToChar (a / 4) (by omega),
      charToSix_sixToChar (a % 4 * 16 + b / 16) (by omega),
      charToSix_sixToChar (b % 16 * 4 + c / 64) (by omega),
      charToSix_sixToChar (c % 64) (by omega)]
    omega

theorem atob_btoa (l : List Nat) (h : ∀ b ∈ l, b < 256) : atob (btoa l) = some l :=
  decB64_encB64 l h

@[simp] theorem frame_nil : frame [] = [0] := rfl

@[simp] theorem frame_cons (v : Nat) (t : List Nat) :
    frame (v :: t) = 1 :: v :: frame t := by simp [frame]

theorem frame_inj : ∀ (a b x y : List Nat), frame a ++ x = frame b ++ y →
    a = b ∧ x = y
  | [], [], x, y, h => by simpa using h
  | [], w :: t', x, y, h => by simp at h
  | v :: t, [], x, y, h => by simp at h
  | v :: t, w :: t', x, y, h => by
    simp only [frame_cons, List.cons_append, List.cons.injEq] at h
    obtain ⟨-, hvw, hrest⟩ := h
    obtain ⟨hab, hxy⟩ := frame_inj t t' x y hrest
    exact ⟨by rw [hvw, hab], hxy⟩

theorem mem_frame {b : Nat} {l : List Nat} (h : b ∈ frame l) :
    b = 0 ∨ b = 1 ∨ b ∈ l := by
  simp only [frame, List.mem_append, List.mem_flatMap] at h
  rcases h with ⟨x, hx, hb⟩ | hb
  · simp at hb
    rcases hb with hb | hb
    · exact Or.inr (Or.inl hb)
    · exact Or.inr (Or.inr (hb ▸ hx))
  · simp at hb
    exact Or.inl hb

theorem aesGcmDecrypt_encrypt (k : CryptoKey) (iv pt : List Nat) :
    aesGcmDecrypt k iv (aesGcmEncrypt k iv pt) = some pt := by
  simp [aesGcmDecrypt, aesGcmEncrypt, List.isPrefixOf_iff_prefix]

theorem aesGcmDecrypt_wrong_key (k k' : CryptoKey) (iv pt : List Nat)
    (h : k' ≠ k) :
    aesGcmDecrypt k' iv (aesGcmEncrypt k iv pt) = none := by
  simp only [aesGcmDecrypt, aesGcmEncrypt]
  rw [if_neg]
  intro hp
  rw [List.isPrefixOf_iff_prefix] at hp
  obtain ⟨r, hr⟩ := hp
  simp only [gcmTag, List.append_assoc] at hr
  obtain ⟨hm, hrest⟩ := frame_inj _ _ _ _ hr.symm
  obtain ⟨hs, -⟩ := frame_inj _ _ _ _ hrest
  apply h
  cases k; cases k'
  simp_all

/-- C7 — Password-mode encryption round-trips: decrypting the artifact
produced by `encryptHTML` with the same password yields the original
plaintext, and decrypting it with any different password fails (returns
`null`) rather than producing output.  Passwords and plaintexts are the
byte lists produced by `TextEncoder` (hence below 256); salt and iv are the
32- and 16-byte random values `encryptHTML` draws. -/
theorem password_encryption_roundtrip
    (salt iv passwordBytes passwordBytes' plainBytes : List Nat)
    (hsalt : salt.length = 32) (hiv : iv.length = 16)
    (hbs : ∀ b ∈ salt, b < 256) (hbi : ∀ b ∈ iv, b < 256)
    (hbp : ∀ b ∈ passwordBytes, b < 256) (hbt : ∀ b ∈ plainBytes, b < 256) :
    shellDecrypt (encryptHTML salt iv plainBytes passwordBytes) passwordBytes
      = some plainBytes ∧
    (passwordBytes' ≠ passwordBytes →
      shellDecrypt (encryptHTML salt iv plainBytes passwordBytes) passwordBytes'
        = none) := by
  set ct := aesGcmEncrypt (deriveKey passwordBytes salt) iv plainBytes with hct
  have hbound : ∀ b ∈ salt ++ iv ++ ct, b < 256 := by
    intro b hb
    simp only [hct, aesGcmEncrypt, gcmTag, deriveKey, List.append_assoc,
      List.mem_append] at hb
    rcases hb with hb | hb | hb | hb | hb | hb
    · exact hbs b hb
    · exact hbi b hb
    · rcases mem_frame hb with h0 | h1 | h2
      · omega
      · omega
      · exact hbp b h2
    · rcases mem_frame hb with h0 | h1 | h2
      · omega
      · omega
      · exact hbs b h2
    · rcases mem_frame hb with h0 | h1 | h2
      · omega
      · omega
      · exact hbi b h2
    · exact hbt b hb
  have hatob : atob (btoa (salt ++ iv ++ ct)) = some (salt ++ iv ++ ct) :=
    atob_btoa _ hbound
  have htake : (salt ++ (iv ++ ct)).take 32 = salt := List.take_left' hsalt
  have hdrop32 : (salt ++ (iv ++ ct)).drop 32 = iv ++ ct := List.drop_left' hsalt
  have hdrop48 : (salt ++ (iv ++ ct)).drop 48 = ct := by
    rw [← List.append_assoc]
    exact List.drop_left' (by simp [hsalt, hiv])
  have htake16 : (iv ++ ct).take 16 = iv := List.take_left' hiv
  constructor
  · show shellDecrypt (btoa (salt ++ iv ++ ct)) passwordBytes = some plainBytes
    simp only [shellDecrypt, hatob]
    rw [List.append_assoc]
    simp only [htake, hdrop32, hdrop48, htake16]
    exact aesGcmDecrypt_encrypt _ _ _
  · intro hne
    show shellDecrypt (btoa (salt ++ iv ++ ct)) passwordBytes' = none
    simp only [shellDecrypt, hatob]
    rw [List.append_assoc]
    simp only [htake, hdrop32, hdrop48, htake16]
    exact aesGcmDecrypt_wrong_key _ _ _ _ (by simp [deriveKey, hne])

/-- Witness for C7 at a concrete salt, iv, password and plaintext. -/
theorem password_encryption_roundtrip_witness :
    shellDecrypt (encryptHTML (List.replicate 32 0) (List.replicate 16 1)
        [104, 105, 33] [97]) [97] = some [104, 105, 33] ∧
    shellDecrypt (encryptHTML (List.replicate 32 0) (List.replicate 16 1)
        [104, 105, 33] [97]) [98] = none :=
  ⟨(password_encryption_roundtrip (List.replicate 32 0) (List.replicate 16 1)
      [97] [98] [104, 105, 33] (by decide) (by decide) (by decide) (by decide)
      (by decide) (by decide)).1,
   (password_encryption_roundtrip (List.replicate 32 0) (List.replicate 16 1)
      [97] [98] [104, 105, 33] (by decide) (by decide) (by decide) (by decide)
      (by decide) (by decide)).2 (by decide)⟩

/-! ## Claims about API key rotation (C1, C8) -/

/-- C1 (counterexample) — the claim states that during `rotateApiKey` the new
`ApiKeyIndex` entry is written before the old one is deleted, so that every
intermediate state keeps at least one live `ApiKeyIndex` entry for the user.
In fact the source deletes the old `key:` entry (step 2) before writing the
new one (step 3): starting from a store in which alice's only key is
`sk_old`, the intermediate state after step 2 has zero live `ApiKeyIndex`
entries for alice. -/
theorem rotate_zero_key_window_cex :
    (rotateTrace
        [⟨"user:alice", .user "sk_old" "2024-01-01" "", none⟩,
         ⟨"key:sk_old", .uname "alice", none⟩]
        0 "alice" "sk_new").map
      (fun tr => liveKeyCount tr.2.1 0 "alice") = some 0 := by decide

/-- C1 (amended) — During `rotateApiKey` the old `ApiKeyIndex` entry is
deleted before the new one is written: in the intermediate state between the
delete and the put, neither the old nor the (fresh) new API key
authenticates the user — a window of zero valid keys — while after the final
step the new key authenticates and the old one does not. -/
theorem rotate_zero_key_window
    (s : Store) (now : Nat) (username oldKey created machineId newKey : String)
    (tr : Store × Store × Store)
    (huser : getUserByUsername s now username = some (.user oldKey created machineId))
    (hold : oldKey ≠ "")
    (hne : oldKey ≠ newKey)
    (hsk : strStartsWith newKey "sk_" = true)
    (hfresh : kvGet s ("key:" ++ newKey) now = none)
    (hrot : rotateTrace s now username newKey = some tr) :
    getUserByKey tr.2.1 now oldKey = none ∧
    getUserByKey tr.2.1 now newKey = none ∧
    getUserByKey tr.2.2 now oldKey = none ∧
    getUserByKey tr.2.2 now newKey = some username := by
  simp only [rotateTrace, huser, hold, ne_eq, not_false_iff, if_true,
    Option.some.injEq] at hrot
  subst hrot
  have hnewne : "key:" ++ newKey ≠ "key:" ++ oldKey :=
    fun hh => hne (keyKey_inj hh).symm
  have holdne : "key:" ++ oldKey ≠ "key:" ++ newKey :=
    fun hh => hne.symm (keyKey_inj hh).symm
  have hnew_empty : newKey ≠ "" := by
    intro hempty
    rw [hempty] at hsk
    exact absurd hsk (by decide)
  have hs2_old : kvGet (kvDelete (kvPut s ("user:" ++ username)
      (.user newKey created machineId) none) ("key:" ++ oldKey))
      ("key:" ++ oldKey) now = none := kvGet_delete_same _ _ _
  have hs2_new : kvGet (kvDelete (kvPut s ("user:" ++ username)
      (.user newKey created machineId) none) ("key:" ++ oldKey))
      ("key:" ++ newKey) now = none := by
    rw [kvGet_delete_other _ _ _ _ hnewne,
      kvGet_put_other _ _ _ _ _ _ (Ne.symm (userKey_ne_keyKey username newKey))]
    exact hfresh
  refine ⟨?_, ?_, ?_, ?_⟩
  · simp only [getUserByKey, hold]
    simp [hs2_old]
  · simp only [getUserByKey]
    simp [hs2_new, hnew_empty]
  · simp only [getUserByKey, hold]
    rw [kvGet_put_other _ _ _ _ _ _ holdne]
    simp [hs2_old]
  · simp only [getUserByKey, hnew_empty, hsk]
    simp [kvGet_put_same_noexp]

/-- Witness for the amended C1 theorem at a concrete store. -/
theorem rotate_zero_key_window_witness :
    getUserByKey
      ((rotateTrace
          [⟨"user:alice", .user "sk_old" "2024-01-01" "", none⟩,
           ⟨"key:sk_old", .uname "alice", none⟩]
          0 "alice" "sk_new").getD ([], [], [])).2.1 0 "sk_old" = none ∧
    getUserByKey
      ((rotateTrace
          [⟨"user:alice", .user "sk_old" "2024-01-01" "", none⟩,
           ⟨"key:sk_old", .uname "alice", none⟩]
          0 "alice" "sk_new").getD ([], [], [])).2.1 0 "sk_new" = none := by
  have h := rotate_zero_key_window
    [⟨"user:alice", .user "sk_old" "2024-01-01" "", none⟩,
     ⟨"key:sk_old", .uname "alice", none⟩]
    0 "alice" "sk_old" "2024-01-01" "" "sk_new"
    ((rotateTrace
        [⟨"user:alice", .user "sk_old" "2024-01-01" "", none⟩,
         ⟨"key:sk_old", .uname "alice", none⟩]
        0 "alice" "sk_new").getD ([], [], []))
    (by decide) (by decide) (by decide) (by decide) (by decide) (by decide)
  exact ⟨h.1, h.2.1⟩

/-- C8 — After `rotateApiKey` completes for a user, resolving a request with
the old API key returns Unauthenticated (`none`) and resolving with the
newly returned key returns that user's identity.  (`authenticateRequest`
with no machine-id header and the key in `X-API-Key`.) -/
theorem rotate_old_fails_new_succeeds
    (s : Store) (now : Nat) (username oldKey created machineId newKey : String)
    (tr : Store × Store × Store)
    (huser : getUserByUsername s now username = some (.user oldKey created machineId))
    (hne : oldKey ≠ newKey)
    (hsk : strStartsWith newKey "sk_" = true)
    (hrot : rotateTrace s now username newKey = some tr) :
    authenticateRequest tr.2.2 now none (some oldKey) = none ∧
    authenticateRequest tr.2.2 now none (some newKey) = some username := by
  simp only [rotateTrace, huser, Option.some.injEq] at hrot
  subst hrot
  have hnew_empty : newKey ≠ "" := by
    intro hempty
    rw [hempty] at hsk
    exact absurd hsk (by decide)
  constructor
  · by_cases hold : oldKey = ""
    · simp [authenticateRequest, Option.bind, getUserByKey, hold]
    · have holdne : "key:" ++ oldKey ≠ "key:" ++ newKey :=
        fun hh => hne.symm (keyKey_inj hh).symm
      have hkv : kvGet (kvPut
          (kvDelete (kvPut s ("user:" ++ username)
            (.user newKey created machineId) none) ("key:" ++ oldKey))
          ("key:" ++ newKey) (.uname username) none) ("key:" ++ oldKey) now
          = none := by
        rw [kvGet_put_other _ _ _ _ _ _ holdne]
        exact kvGet_delete_same _ _ _
      simp [authenticateRequest, Option.bind, getUserByKey, hold, hkv]
  · simp only [authenticateRequest, Option.bind, getUserByKey, hnew_empty, hsk]
    simp [kvGet_put_same_noexp]

/-- Witness for C8 at a concrete store. -/
theorem rotate_old_fails_new_succeeds_witness :
    authenticateRequest
      ((rotateTrace
          [⟨"user:alice", .user "sk_aaa" "2024-01-01" "", none⟩,
           ⟨"key:sk_aaa", .uname "alice", none⟩]
          0 "alice" "sk_bbb").getD ([], [], [])).2.2 0 none (some "sk_aaa")
      = none ∧
    authenticateRequest
      ((rotateTrace
          [⟨"user:alice", .user "sk_aaa" "2024-01-01" "", none⟩,
           ⟨"key:sk_aaa", .uname "alice", none⟩]
          0 "alice" "sk_bbb").getD ([], [], [])).2.2 0 none (some "sk_bbb")
      = some "alice" :=
  rotate_old_fails_new_succeeds
    [⟨"user:alice", .user "sk_aaa" "2024-01-01" "", none⟩,
     ⟨"key:sk_aaa", .uname "alice", none⟩]
    0 "alice" "sk_aaa" "2024-01-01" "" "sk_bbb"
    ((rotateTrace
        [⟨"user:alice", .user "sk_aaa" "2024-01-01" "", none⟩,
         ⟨"key:sk_aaa", .uname "alice", none⟩]
        0 "alice" "sk_bbb").getD ([], [], []))
    (by decide) (by decide) (by decide) (by decide)

/-! ## Claims about OTP verification (C2, C10) -/

theorem chalKey_ne_recKey (p o p' : String) : chalKey p o ≠ recKey p' := by
  intro h
  have hd := congrArg String.data h
  simp only [chalKey, recKey, string_append_data, List.append_assoc] at hd
  simp at hd

theorem rateKey_ne_recKey (p e p' : String) : rateKey p e ≠ recKey p' := by
  intro h
  have hd := congrArg String.data h
  simp only [rateKey, recKey, string_append_data, List.append_assoc] at hd
  simp at hd

theorem chalKey_ne_rateKey (p o p' e : String) : chalKey p o ≠ rateKey p' e := by
  intro h
  have hd := congrArg String.data h
  simp only [chalKey, rateKey, string_append_data, List.append_assoc] at hd
  simp at hd

/-- C2 — Every OTP code is consumed exactly once: for an issued code `otp`
on project `project` whose challenge is live and whose
`ProtectionKeyRecord` holds key `k`, the first `verifyAccess` returns the
raw key and deletes the stored challenge, and a second `verifyAccess` with
the same code fails with `InvalidOrExpiredCode` (leaving the state
unchanged). -/
theorem otp_single_use
    (s : Store) (now now2 now3 : Nat) (project otp k : String)
    (es : List String) (v : Val)
    (hp : project ≠ "") (ho : otp ≠ "")
    (hch : kvGet s (chalKey project otp) now = some v)
    (hrec : kvGet s (recKey project) now = some (.otpKeyRec k es))
    (hk : k ≠ "") :
    (handleOTPVerify s now project otp).1 = .success k ∧
    kvGet (handleOTPVerify s now project otp).2 (chalKey project otp) now2 = none ∧
    handleOTPVerify (handleOTPVerify s now project otp).2 now3 project otp
      = (.invalidOrExpired, (handleOTPVerify s now project otp).2) := by
  have hrec' : kvGet (kvDelete s (chalKey project otp)) (recKey project) now
      = some (.otpKeyRec k es) := by
    rw [kvGet_delete_other _ _ _ _ (Ne.symm (chalKey_ne_recKey project otp project))]
    exact hrec
  have hfirst : handleOTPVerify s now project otp
      = (.success k, kvDelete s (chalKey project otp)) := by
    simp [handleOTPVerify, hp, ho, hch, hrec', hk]
  refine ⟨by rw [hfirst], ?_, ?_⟩
  · rw [hfirst]
    exact kvGet_delete_same _ _ _
  · rw [hfirst]
    simp [handleOTPVerify, hp, ho, kvGet_delete_same]

/-- Witness for C2 at a concrete store. -/
theorem otp_single_use_witness :
    (handleOTPVerify
        [⟨"otp:p:c1c2", .challenge "a@co.com" 0, some 300⟩,
         ⟨"otp-key:p", .otpKeyRec "deadbeef" ["@co.com"], none⟩]
        0 "p" "c1c2").1 = .success "deadbeef" ∧
    kvGet (handleOTPVerify
        [⟨"otp:p:c1c2", .challenge "a@co.com" 0, some 300⟩,
         ⟨"otp-key:p", .otpKeyRec "deadbeef" ["@co.com"], none⟩]
        0 "p" "c1c2").2 ("otp:" ++ "p" ++ ":" ++ "c1c2") 1 = none ∧
    handleOTPVerify (handleOTPVerify
        [⟨"otp:p:c1c2", .challenge "a@co.com" 0, some 300⟩,
         ⟨"otp-key:p", .otpKeyRec "deadbeef" ["@co.com"], none⟩]
        0 "p" "c1c2").2 2 "p" "c1c2"
      = (.invalidOrExpired, (handleOTPVerify
        [⟨"otp:p:c1c2", .challenge "a@co.com" 0, some 300⟩,
         ⟨"otp-key:p", .otpKeyRec "deadbeef" ["@co.com"], none⟩]
        0 "p" "c1c2").2) :=
  otp_single_use
    [⟨"otp:p:c1c2", .challenge "a@co.com" 0, some 300⟩,
     ⟨"otp-key:p", .otpKeyRec "deadbeef" ["@co.com"], none⟩]
    0 1 2 "p" "c1c2" "deadbeef" ["@co.com"] (.challenge "a@co.com" 0)
    (by decide) (by decide) (by decide) (by decide) (by decide)

/-- C10 — When `verifyAccess` finds the challenge but the project's
`ProtectionKeyRecord` is missing, it returns `KeyNotFound` after having
already deleted the challenge: the state is changed despite the error, and
a retry with the same code fails with `InvalidOrExpiredCode` instead of
`KeyNotFound`. -/
theorem otp_verify_key_missing_deletes_challenge
    (s : Store) (now now2 now3 : Nat) (project otp : String) (v : Val)
    (hp : project ≠ "") (ho : otp ≠ "")
    (hch : kvGet s (chalKey project otp) now = some v)
    (hrec : kvGet s (recKey project) now = none) :
    (handleOTPVerify s now project otp).1 = .keyNotFound ∧
    kvGet (handleOTPVerify s now project otp).2 (chalKey project otp) now2 = none ∧
    handleOTPVerify (handleOTPVerify s now project otp).2 now3 project otp
      = (.invalidOrExpired, (handleOTPVerify s now project otp).2) := by
  have hrec' : kvGet (kvDelete s (chalKey project otp)) (recKey project) now
      = none := by
    rw [kvGet_delete_other _ _ _ _ (Ne.symm (chalKey_ne_recKey project otp project))]
    exact hrec
  have hfirst : handleOTPVerify s now project otp
      = (.keyNotFound, kvDelete s (chalKey project otp)) := by
    simp [handleOTPVerify, hp, ho, hch, hrec']
  refine ⟨by rw [hfirst], ?_, ?_⟩
  · rw [hfirst]
    exact kvGet_delete_same _ _ _
  · rw [hfirst]
    simp [handleOTPVerify, hp, ho, kvGet_delete_same]

/-- Witness for C10 at a concrete store (challenge present, record absent). -/
theorem otp_verify_key_missing_witness :
    (handleOTPVerify [⟨"otp:p:c1c2", .challenge "a@co.com" 0, some 300⟩]
        0 "p" "c1c2").1 = .keyNotFound ∧
    handleOTPVerify (handleOTPVerify
        [⟨"otp:p:c1c2", .challenge "a@co.com" 0, some 300⟩]
        0 "p" "c1c2").2 1 "p" "c1c2"
      = (.invalidOrExpired, (handleOTPVerify
        [⟨"otp:p:c1c2", .challenge "a@co.com" 0, some 300⟩]
        0 "p" "c1c2").2) := by
  have h := otp_verify_key_missing_deletes_challenge
    [⟨"otp:p:c1c2", .challenge "a@co.com" 0, some 300⟩]
    0 1 1 "p" "c1c2" (.challenge "a@co.com" 0)
    (by decide) (by decide) (by decide) (by decide)
  exact ⟨h.1, h.2.2⟩

/-! ## Claim about allowlist matching (C5) -/

/-- The per-pattern test of the allowlist loop. -/
def patternMatches (emailLower : String) (pattern : String) : Bool :=
  if strStartsWith pattern "@" then strEndsWith emailLower (asciiLower pattern)
  else emailLower = asciiLower pattern

theorem emailAllowed_foldl (email : String) :
    ∀ (l : List String) (b : Bool),
      l.foldl
        (fun allowed pattern =>
          if strStartsWith pattern "@" then
            if strEndsWith (asciiLower email) (asciiLower pattern) then true
            else allowed
          else
            if asciiLower email = asciiLower pattern then true else allowed)
        b
      = (b || l.any (patternMatches (asciiLower email)))
  | [], b => by simp
  | p :: l, b => by
    rw [List.foldl_cons, emailAllowed_foldl email l, List.any_cons]
    by_cases hat : strStartsWith p "@"
    · by_cases hend : strEndsWith (asciiLower email) (asciiLower p) <;>
        simp [patternMatches, hat, hend]
    · by_cases heq : asciiLower email = asciiLower p <;>
        simp [patternMatches, hat, heq]

/-- C5 — Server-side OTP allowlist matching: the email is case-folded and is
authorized iff it equals some non-`@` pattern case-insensitively, or is a
case-insensitive suffix match of some `@domain` pattern; concretely,
`alice@co.com` matches pattern `alice@co.com` and pattern `@co.com` but not
`@other.com`. -/
theorem allowlist_matching :
    (∀ (email : String) (patterns : List String),
      emailAllowed email patterns = true ↔
        ∃ p ∈ patterns,
          (strStartsWith p "@" = true ∧
            strEndsWith (asciiLower email) (asciiLower p) = true) ∨
          (strStartsWith p "@" = false ∧ asciiLower email = asciiLower p)) ∧
    emailAllowed "alice@co.com" ["alice@co.com"] = true ∧
    emailAllowed "alice@co.com" ["@co.com"] = true ∧
    emailAllowed "alice@co.com" ["@other.com"] = false := by
  refine ⟨fun email patterns => ?_, by decide, by decide, by decide⟩
  rw [show emailAllowed email patterns
      = (false || patterns.any (patternMatches (asciiLower email)))
    from emailAllowed_foldl email patterns false]
  rw [Bool.false_or, List.any_eq_true]
  constructor
  · rintro ⟨p, hp, hm⟩
    refine ⟨p, hp, ?_⟩
    by_cases hat : strStartsWith p "@"
    · exact Or.inl ⟨hat, by simpa [patternMatches, hat] using hm⟩
    · exact Or.inr ⟨by simpa using hat, by simpa [patternMatches, hat] using hm⟩
  · rintro ⟨p, hp, hm | hm⟩
    · exact ⟨p, hp, by simp [patternMatches, hm.1, hm.2]⟩
    · exact ⟨p, hp, by simp [patternMatches, hm.1, hm.2]⟩

/-! ## Claim about OTP request rate limiting (C6) -/

theorem kvGet_put_ttl (s : Store) (k : String) (v : Val) (x now : Nat) :
    kvGet (kvPut s k v (some x)) k now = if now < x then some v else none := by
  simp [kvPut, kvGet, liveAt]

/-- Shape of a successful `handleOTPRequest` when no rate counter is live. -/
theorem otpRequest_success_none (s : Store) (t : Nat) (e p url o k : String)
    (es : List String)
    (he : e ≠ "") (hp : p ≠ "") (hu : url ≠ "")
    (hrec : kvGet s (recKey p) t = some (.otpKeyRec k es))
    (hallow : emailAllowed e es = true)
    (hrate : kvGet s (rateKey p (asciiLower e)) t = none) :
    handleOTPRequest s t e p url o true true =
      (.success o,
       kvPut (kvPut s (rateKey p (asciiLower e)) (.counter 1) (some (t + 900)))
         (chalKey p o) (.challenge (asciiLower e) t) (some (t + 300))) := by
  simp [handleOTPRequest, he, hp, hu, hrec, hallow, hrate, emailsOf]

/-- Shape of a successful `handleOTPRequest` when the live counter is below
the ceiling. -/
theorem otpRequest_success_counter (s : Store) (t : Nat) (e p url o k : String)
    (es : List String) (n : Nat)
    (he : e ≠ "") (hp : p ≠ "") (hu : url ≠ "")
    (hrec : kvGet s (recKey p) t = some (.otpKeyRec k es))
    (hallow : emailAllowed e es = true)
    (hrate : kvGet s (rateKey p (asciiLower e)) t = some (.counter n))
    (hn : n < 3) :
    handleOTPRequest s t e p url o true true =
      (.success o,
       kvPut (kvPut s (rateKey p (asciiLower e)) (.counter (n + 1)) (some (t + 900)))
         (chalKey p o) (.challenge (asciiLower e) t) (some (t + 300))) := by
  have hnle : ¬ 3 ≤ n := by omega
  simp [handleOTPRequest, he, hp, hu, hrec, hallow, hrate, hnle, emailsOf]

/-- Shape of a rate-limited `handleOTPRequest`: the state is unchanged. -/
theorem otpRequest_rate_limited (s : Store) (t : Nat) (e p url o k : String)
    (es : List String) (n : Nat)
    (he : e ≠ "") (hp : p ≠ "") (hu : url ≠ "")
    (hrec : kvGet s (recKey p) t = some (.otpKeyRec k es))
    (hallow : emailAllowed e es = true)
    (hrate : kvGet s (rateKey p (asciiLower e)) t = some (.counter n))
    (hn : 3 ≤ n) :
    handleOTPRequest s t e p url o true true = (.rateLimited, s) := by
  simp [handleOTPRequest, he, hp, hu, hrec, hallow, hrate, hn, emailsOf]

/-- C6 — OTP request rate limiting: for a (project, email) pair with no live
counter, the first 3 `requestAccess` calls within the 15-minute window are
allowed and each increments the counter (to 1, 2, 3), the 4th within the
window is rejected with `RateLimited` (state unchanged), and once the
counter's 900-second TTL has elapsed a request succeeds again. -/
theorem otp_request_rate_limiting
    (s0 : Store) (t1 t2 t3 t4 t5 : Nat) (e p url o1 o2 o3 o4 o5 k : String)
    (es : List String)
    (he : e ≠ "") (hp : p ≠ "") (hu : url ≠ "")
    (hallow : emailAllowed e es = true)
    (hrec : ∀ t, kvGet s0 (recKey p) t = some (.otpKeyRec k es))
    (hfresh : ∀ t, kvGet s0 (rateKey p (asciiLower e)) t = none)
    (h12 : t2 < t1 + 900) (h23 : t3 < t2 + 900) (h34 : t4 < t3 + 900)
    (h5 : t3 + 900 ≤ t5) :
    (handleOTPRequest s0 t1 e p url o1 true true).1 = .success o1 ∧
    kvGet (handleOTPRequest s0 t1 e p url o1 true true).2 (rateKey p (asciiLower e)) t2 = some (.counter 1) ∧
    (handleOTPRequest (handleOTPRequest s0 t1 e p url o1 true true).2 t2 e p url o2 true true).1 = .success o2 ∧
    kvGet (handleOTPRequest (handleOTPRequest s0 t1 e p url o1 true true).2 t2 e p url o2 true true).2 (rateKey p (asciiLower e)) t3 = some (.counter 2) ∧
    (handleOTPRequest (handleOTPRequest (handleOTPRequest s0 t1 e p url o1 true true).2 t2 e p url o2 true true).2 t3 e p url o3 true true).1 = .success o3 ∧
    kvGet (handleOTPRequest (handleOTPRequest (handleOTPRequest s0 t1 e p url o1 true true).2 t2 e p url o2 true true).2 t3 e p url o3 true true).2 (rateKey p (asciiLower e)) t4 = some (.counter 3) ∧
    handleOTPRequest (handleOTPRequest (handleOTPRequest (handleOTPRequest s0 t1 e p url o1 true true).2 t2 e p url o2 true true).2 t3 e p url o3 true true).2 t4 e p url o4 true true
      = (.rateLimited, (handleOTPRequest (handleOTPRequest (handleOTPRequest s0 t1 e p url o1 true true).2 t2 e p url o2 true true).2 t3 e p url o3 true true).2) ∧
    (handleOTPRequest (handleOTPRequest (handleOTPRequest (handleOTPRequest (handleOTPRequest s0 t1 e p url o1 true true).2 t2 e p url o2 true true).2 t3 e p url o3 true true).2 t4 e p url o4 true true).2 t5 e p url o5 true true).1 = .success o5 := by
  have hreq1 := otpRequest_success_none s0 t1 e p url o1 k es he hp hu
    (hrec t1) hallow (hfresh t1)
  obtain ⟨S1, hS1⟩ :
      ∃ S, kvPut (kvPut s0 (rateKey p (asciiLower e)) (.counter 1) (some (t1 + 900)))
        (chalKey p o1) (.challenge (asciiLower e) t1) (some (t1 + 300)) = S :=
    ⟨_, rfl⟩
  rw [hS1] at hreq1
  have hrecS1 : ∀ t, kvGet S1 (recKey p) t = some (.otpKeyRec k es) := by
    intro t
    rw [← hS1, kvGet_put_other _ _ _ _ _ _ (Ne.symm (chalKey_ne_recKey p o1 p)),
      kvGet_put_other _ _ _ _ _ _ (Ne.symm (rateKey_ne_recKey p (asciiLower e) p))]
    exact hrec t
  have hrateS1 : ∀ t, kvGet S1 (rateKey p (asciiLower e)) t
      = if t < t1 + 900 then some (.counter 1) else none := by
    intro t
    rw [← hS1,
      kvGet_put_other _ _ _ _ _ _ (Ne.symm (chalKey_ne_rateKey p o1 p (asciiLower e))),
      kvGet_put_ttl]
  have hreq2 := otpRequest_success_counter S1 t2 e p url o2 k es 1 he hp hu
    (hrecS1 t2) hallow (by rw [hrateS1 t2, if_pos h12]) (by omega)
  obtain ⟨S2, hS2⟩ :
      ∃ S, kvPut (kvPut S1 (rateKey p (asciiLower e)) (.counter 2) (some (t2 + 900)))
        (chalKey p o2) (.challenge (asciiLower e) t2) (some (t2 + 300)) = S :=
    ⟨_, rfl⟩
  rw [hS2] at hreq2
  have hrecS2 : ∀ t, kvGet S2 (recKey p) t = some (.otpKeyRec k es) := by
    intro t
    rw [← hS2, kvGet_put_other _ _ _ _ _ _ (Ne.symm (chalKey_ne_recKey p o2 p)),
      kvGet_put_other _ _ _ _ _ _ (Ne.symm (rateKey_ne_recKey p (asciiLower e) p))]
    exact hrecS1 t
  have hrateS2 : ∀ t, kvGet S2 (rateKey p (asciiLower e)) t
      = if t < t2 + 900 then some (.counter 2) else none := by
    intro t
    rw [← hS2,
      kvGet_put_other _ _ _ _ _ _ (Ne.symm (chalKey_ne_rateKey p o2 p (asciiLower e))),
      kvGet_put_ttl]
  have hreq3 := otpRequest_success_counter S2 t3 e p url o3 k es 2 he hp hu
    (hrecS2 t3) hallow (by rw [hrateS2 t3, if_pos h23]) (by omega)
  obtain ⟨S3, hS3⟩ :
      ∃ S, kvPut (kvPut S2 (rateKey p (asciiLower e)) (.counter 3) (some (t3 + 900)))
        (chalKey p o3) (.challenge (asciiLower e) t3) (some (t3 + 300)) = S :=
    ⟨_, rfl⟩
  rw [hS3] at hreq3
  have hrecS3 : ∀ t, kvGet S3 (recKey p) t = some (.otpKeyRec k es) := by
    intro t
    rw [← hS3, kvGet_put_other _ _ _ _ _ _ (Ne.symm (chalKey_ne_recKey p o3 p)),
      kvGet_put_other _ _ _ _ _ _ (Ne.symm (rateKey_ne_recKey p (asciiLower e) p))]
    exact hrecS2 t
  have hrateS3 : ∀ t, kvGet S3 (rateKey p (asciiLower e)) t
      = if t < t3 + 900 then some (.counter 3) else none := by
    intro t
    rw [← hS3,
      kvGet_put_other _ _ _ _ _ _ (Ne.symm (chalKey_ne_rateKey p o3 p (asciiLower e))),
      kvGet_put_ttl]
  have hreq4 := otpRequest_rate_limited S3 t4 e p url o4 k es 3 he hp hu
    (hrecS3 t4) hallow (by rw [hrateS3 t4, if_pos h34]) (by omega)
  have hrate5 : kvGet S3 (rateKey p (asciiLower e)) t5 = none := by
    rw [hrateS3 t5, if_neg (by omega)]
  have hreq5 := otpRequest_success_none S3 t5 e p url o5 k es he hp hu
    (hrecS3 t5) hallow hrate5
  refine ⟨?_, ?_, ?_, ?_, ?_, ?_, ?_, ?_⟩
  · rw [hreq1]
  · rw [hreq1, hrateS1 t2, if_pos h12]
  · rw [hreq1, hreq2]
  · rw [hreq1, hreq2, hrateS2 t3, if_pos h23]
  · rw [hreq1, hreq2, hreq3]
  · rw [hreq1, hreq2, hreq3, hrateS3 t4, if_pos h34]
  · rw [hreq1, hreq2, hreq3, hreq4]
  · rw [hreq1, hreq2, hreq3, hreq4, hreq5]

/-- Witness for C6 at a concrete store and concrete times 0, 1, 2, 3, 902. -/
theorem otp_request_rate_limiting_witness :
    (handleOTPRequest [⟨"otp-key:p", .otpKeyRec "k1" ["@co.com"], none⟩] 0 "a@co.com" "p" "u" "c1" true true).1 = .success "c1" ∧
    (handleOTPRequest (handleOTPRequest (handleOTPRequest (handleOTPRequest [⟨"otp-key:p", .otpKeyRec "k1" ["@co.com"], none⟩] 0 "a@co.com" "p" "u" "c1" true true).2 1 "a@co.com" "p" "u" "c2" true true).2 2 "a@co.com" "p" "u" "c3" true true).2 3 "a@co.com" "p" "u" "c4" true true).1 = .rateLimited ∧
    (handleOTPRequest (handleOTPRequest (handleOTPRequest (handleOTPRequest (handleOTPRequest [⟨"otp-key:p", .otpKeyRec "k1" ["@co.com"], none⟩] 0 "a@co.com" "p" "u" "c1" true true).2 1 "a@co.com" "p" "u" "c2" true true).2 2 "a@co.com" "p" "u" "c3" true true).2 3 "a@co.com" "p" "u" "c4" true true).2 902 "a@co.com" "p" "u" "c5" true true).1 = .success "c5" := by
  have h := otp_request_rate_limiting [⟨"otp-key:p", .otpKeyRec "k1" ["@co.com"], none⟩]
    0 1 2 3 902 "a@co.com" "p" "u" "c1" "c2" "c3" "c4" "c5" "k1" ["@co.com"]
    (by decide) (by decide) (by decide) (by decide)
    (fun _ => rfl) (fun _ => rfl)
    (by decide) (by decide) (by decide) (by decide)
  refine ⟨h.1, ?_, h.2.2.2.2.2.2.2⟩
  rw [h.2.2.2.2.2.2.1]

/-! ## Claim about error responses (C3) -/

/-- C3 (counterexample) — the claim states that every handler catches raw
exceptions and maps them to a structured error object that does not leak a
stack trace.  It is false at the deploy route: `handleDeploy`'s catch block
(lines 1289–1299) returns `{error, message, stack: error.stack}`, so the
thrown error's stack trace is included in the response body (and the `/me`
and `/key` routes have no catch mapping at all). -/
theorem error_no_stack_leak_cex :
    ¬ (∀ r : Route, ∃ f, handlerCatch r = some f ∧
        ∀ e : JsError, (f e).stack = none) := by
  intro h
  obtain ⟨f, hf, hnone⟩ := h .deployRoute
  have hfd : f = handleDeployCatch := by simpa [handlerCatch] using hf.symm
  have hb := hnone ⟨"boom", "Error: boom at handleDeploy"⟩
  rw [hfd] at hb
  simp [handleDeployCatch] at hb

/-- C3 (amended) — Not every operation maps raw exceptions to a structured
error object: `handleMe` and `handleKey` have no `try/catch` at all (and the
top-level dispatcher does not wrap them), so raw exceptions from those two
routes escape uncaught; every other route handler does catch and returns a
structured error body, and all of those omit the stack trace except
`handleDeploy`, whose catch block includes `error.stack` in the response
body, exposing the stack trace to the caller on internal deploy errors. -/
theorem error_stack_leak_amended (e : JsError) :
    handlerCatch .meRoute = none ∧
    handlerCatch .keyRoute = none ∧
    (handleRegisterCatch e).stack = none ∧
    (handleOTPRequestCatch e).stack = none ∧
    (handleOTPVerifyCatch e).stack = none ∧
    (handleListCatch e).stack = none ∧
    (handleUninstallCatch e).stack = none ∧
    (handleFormSubmitCatch e).stack = none ∧
    (handleFormsListCatch e).stack = none ∧
    (handleFormsDeleteCatch e).stack = none ∧
    (handleDeleteCatch e).stack = none ∧
    (handleDeployCatch e).stack = some e.stack :=
  ⟨rfl, rfl, rfl, rfl, rfl, rfl, rfl, rfl, rfl, rfl, rfl, rfl⟩

/-! ## Claim about registration atomicity (C4) -/

/-- C4 (counterexample) — the claim states that no outcome of `register`
exists in which some but not all of the three entries (User, ApiKeyIndex,
MachineIndex) are stored.  It is false: the three `put`s are sequential with
no retry or rollback, so when the second `put` fails (is rejected), the
caller receives the catch's 400 error while the already-written User record
stays visible and the other two entries are absent. -/
theorem register_partial_write_cex :
    (handleRegister [] 0 none "alice" "" "m1" "sk_abc" "2024-01-01"
        true false true).1 = .storeError ∧
    kvGet (handleRegister [] 0 none "alice" "" "m1" "sk_abc" "2024-01-01"
        true false true).2 ("user:" ++ "alice") 0
      = some (.user "sk_abc" "2024-01-01" "m1") ∧
    kvGet (handleRegister [] 0 none "alice" "" "m1" "sk_abc" "2024-01-01"
        true false true).2 ("key:" ++ "sk_abc") 0 = none ∧
    kvGet (handleRegister [] 0 none "alice" "" "m1" "sk_abc" "2024-01-01"
        true false true).2 ("machine:" ++ "m1") 0 = none := by decide

/-- C4 (amended) — When every store write succeeds, a successful `register`
leaves all three entries (User, ApiKeyIndex and, when a machine fingerprint
is supplied, MachineIndex) visible to subsequent reads; but the writes are
not atomic: there is no retry, and if the second write fails the operation
surfaces an error while the User record alone remains stored (a
partial-success outcome). -/
theorem register_writes_amended
    (s : Store) (now : Nat) (cfg : Option String)
    (username regCode machineId newKey created : String)
    (hcanon : trimStr (asciiLower username) = username)
    (hcode : (match cfg with | some c => regCode != c | none => false) = false)
    (hvalid : isValidUsername username = true)
    (hmach : getUserByMachineId s now machineId = none)
    (hmid : machineId ≠ "")
    (huser : getUserByUsername s now username = none)
    (hkfresh : ∀ t, kvGet s ("key:" ++ newKey) t = none)
    (hmfresh : ∀ t, kvGet s ("machine:" ++ machineId) t = none) :
    ((handleRegister s now cfg username regCode machineId newKey created
        true true true).1 = .success newKey ∧
      (∀ t, kvGet (handleRegister s now cfg username regCode machineId newKey created
          true true true).2 ("user:" ++ username) t
        = some (.user newKey created machineId)) ∧
      (∀ t, kvGet (handleRegister s now cfg username regCode machineId newKey created
          true true true).2 ("key:" ++ newKey) t = some (.uname username)) ∧
      (∀ t, kvGet (handleRegister s now cfg username regCode machineId newKey created
          true true true).2 ("machine:" ++ machineId) t = some (.uname username))) ∧
    ((handleRegister s now cfg username regCode machineId newKey created
        true false true).1 = .storeError ∧
      (∀ t, kvGet (handleRegister s now cfg username regCode machineId newKey created
          true false true).2 ("user:" ++ username) t
        = some (.user newKey created machineId)) ∧
      (∀ t, kvGet (handleRegister s now cfg username regCode machineId newKey created
          true false true).2 ("key:" ++ newKey) t = none) ∧
      (∀ t, kvGet (handleRegister s now cfg username regCode machineId newKey created
          true false true).2 ("machine:" ++ machineId) t = none)) := by
  have hok : handleRegister s now cfg username regCode machineId newKey created
      true true true
      = (.success newKey,
         kvPut (kvPut (kvPut s ("user:" ++ username)
             (.user newKey created machineId) none)
           ("key:" ++ newKey) (.uname username) none)
           ("machine:" ++ machineId) (.uname username) none) := by
    simp [handleRegister, hcanon, hcode, hvalid, hmach, huser, hmid]
  have hfail : handleRegister s now cfg username regCode machineId newKey created
      true false true
      = (.storeError,
         kvPut s ("user:" ++ username) (.user newKey created machineId) none) := by
    simp [handleRegister, hcanon, hcode, hvalid, hmach, huser, hmid]
  refine ⟨⟨by rw [hok], ?_, ?_, ?_⟩, ⟨by rw [hfail], ?_, ?_, ?_⟩⟩
  · intro t
    simp only [hok]
    rw [kvGet_put_other _ _ _ _ _ _ (Ne.symm (machineKey_ne_userKey machineId username)),
      kvGet_put_other _ _ _ _ _ _ (userKey_ne_keyKey username newKey)]
    exact kvGet_put_same_noexp _ _ _ _
  · intro t
    simp only [hok]
    rw [kvGet_put_other _ _ _ _ _ _ (Ne.symm (machineKey_ne_keyKey machineId newKey))]
    exact kvGet_put_same_noexp _ _ _ _
  · intro t
    simp only [hok]
    exact kvGet_put_same_noexp _ _ _ _
  · intro t
    simp only [hfail]
    exact kvGet_put_same_noexp _ _ _ _
  · intro t
    simp only [hfail]
    rw [kvGet_put_other _ _ _ _ _ _ (Ne.symm (userKey_ne_keyKey username newKey))]
    exact hkfresh t
  · intro t
    simp only [hfail]
    rw [kvGet_put_other _ _ _ _ _ _ (machineKey_ne_userKey machineId username)]
    exact hmfresh t

/-- Witness for the amended C4 theorem at a concrete input. -/
theorem register_writes_amended_witness :
    (handleRegister [] 0 none "alice" "" "m1" "sk_abc" "2024-01-01"
        true true true).1 = .success "sk_abc" ∧
    kvGet (handleRegister [] 0 none "alice" "" "m1" "sk_abc" "2024-01-01"
        true true true).2 ("key:" ++ "sk_abc") 7 = some (.uname "alice") := by
  have h := register_writes_amended [] 0 none "alice" "" "m1" "sk_abc" "2024-01-01"
    (by decide) (by decide) (by decide) (by decide) (by decide) (by decide)
    (fun _ => rfl) (fun _ => rfl)
  exact ⟨h.1.1, h.1.2.2.1 7⟩

/-! ## Claim about the ProtectionKeyRecord on redeploy (C9) -/

/-- C9 — On redeploy of a project that already has a `ProtectionKeyRecord`,
the stored symmetric key is left unchanged while the recipient list is
replaced with the newly supplied (parsed) list; the record is created (with
the freshly generated key) only when absent, and a (re)deploy never deletes
it — afterwards the record is present in either case. -/
theorem protection_key_record_on_redeploy
    (s : Store) (now : Nat) (proj freshKey otpEmails k : String)
    (es : List String) :
    (kvGet s (recKey proj) now = some (.otpKeyRec k es) →
      ∀ t, kvGet (deployOtpStep s now proj freshKey otpEmails) (recKey proj) t
        = some (.otpKeyRec k (parseOtpEmails otpEmails))) ∧
    (kvGet s (recKey proj) now = none →
      ∀ t, kvGet (deployOtpStep s now proj freshKey otpEmails) (recKey proj) t
        = some (.otpKeyRec freshKey (parseOtpEmails otpEmails))) := by
  constructor
  · intro h t
    simp [deployOtpStep, h, kvGet_put_same_noexp]
  · intro h t
    simp [deployOtpStep, h, kvGet_put_same_noexp]

/-- Witness for C9: a redeploy of project `p` reuses the stored key `k1` and
replaces the recipient list. -/
theorem protection_key_record_on_redeploy_witness :
    kvGet (deployOtpStep [⟨"otp-key:p", .otpKeyRec "k1" ["old@x.com"], none⟩]
        0 "p" "freshkey" "a@co.com, b@co.com") (recKey "p") 5
      = some (.otpKeyRec "k1" ["a@co.com", "b@co.com"]) :=
  (protection_key_record_on_redeploy
      [⟨"otp-key:p", .otpKeyRec "k1" ["old@x.com"], none⟩]
      0 "p" "freshkey" "a@co.com, b@co.com" "k1" ["old@x.com"]).1 (by decide) 5

end Bassh
